import Mathlib

/-!
Shallow embedding of `hubblestack/extmods/fdg/time_sync.py`.

The module has two functions:

* `time_check(ntp_servers, max_offset=15, nb_servers=4, extend_chained=True,
  chained=None, chained_status=None)` — merges the chained list into the
  server list, validates non-emptiness, queries each server in order,
  short-circuits on an over-threshold offset, and applies a quorum rule.
* `_query_ntp_server(ntp_server)` — runs `ntpdate -q` (an external
  collaborator) and parses the offset out of the raw text, catching
  `TypeError`, `AttributeError` and `IndexError` (but not `ValueError`).

The external query collaborator (`__salt__['cmd.run']`) is modelled as an
injected function `query : String → Except Unit (Option ℚ)`:
`Except.error ()` models an uncaught Python exception escaping
`_query_ntp_server`, `Except.ok none` models the caught-and-logged `None`
result, and `Except.ok (some q)` models a successfully parsed offset of `q`
seconds.  Python floats are modelled as rationals; every value appearing in
the claims is exactly representable in both.  `chained_status` is unused by
the source and omitted.
-/

/-- Outcome of the per-server query loop of `time_check` (source lines
56-63): `raised` models an uncaught Python exception escaping the loop,
`violated` models the early `return True, False` taken when a parsed offset
exceeds the threshold, and `done c` models falling off the end of the loop
with `checked_servers = c`. -/
inductive LoopOutcome where
  | raised : LoopOutcome
  | violated : LoopOutcome
  | done : ℕ → LoopOutcome
  deriving DecidableEq

/-- Python `list.split(sep)` semantics on character lists, keeping empty
parts, for a single-character separator test (used for `ret.split('\n')`,
source line 82). -/
def splitOnChar (p : Char → Bool) : List Char → List (List Char)
  | [] => [[]]
  | c :: cs =>
    match splitOnChar p cs, p c with
    | r, true => [] :: r
    | [], false => [[c]]
    | h :: t, false => (c :: h) :: t

/-- Whether `l` begins with the character sequence `pat`. -/
def startsWithL : List Char → List Char → Bool
  | _, [] => true
  | [], _ :: _ => false
  | c :: cs, d :: ds => c = d && startsWithL cs ds

/-- Fuelled worker for `splitOnL`.  Each fuel unit consumes at least one
input character, so `length + 1` fuel always suffices; the fuel-exhausted
branch is unreachable from `splitOnL` and only makes the recursion
structural. -/
def splitOnFuel (sep : List Char) : ℕ → List Char → List Char → List (List Char)
  | 0, rest, acc => [acc.reverse ++ rest]
  | _ + 1, [], acc => [acc.reverse]
  | fuel + 1, c :: cs, acc =>
    if startsWithL (c :: cs) sep then
      acc.reverse :: splitOnFuel sep fuel (cs.drop (sep.length - 1)) []
    else
      splitOnFuel sep fuel cs (c :: acc)

/-- Python `str.split(sep)` for a non-empty separator, keeping empty parts:
splits at every (leftmost, non-overlapping) occurrence of `sep` (used for
`.split('offset')`, source line 82). -/
def splitOnL (sep l : List Char) : List (List Char) :=
  splitOnFuel sep (l.length + 1) l []

/-- Worker for `splitWsL`, accumulating the current token reversed. -/
def splitWsAux : List Char → List Char → List (List Char)
  | [], acc => if acc.isEmpty then [] else [acc.reverse]
  | c :: cs, acc =>
    if c.isWhitespace then
      if acc.isEmpty then splitWsAux cs []
      else acc.reverse :: splitWsAux cs []
    else splitWsAux cs (c :: acc)

/-- Python `str.split()` with no argument: split on runs of whitespace,
discarding empty tokens (used for `.split()`, source line 82). -/
def splitWsL (l : List Char) : List (List Char) :=
  splitWsAux l []

/-- Consume an optional leading sign; returns `true` when the sign is
negative, together with the remaining characters. -/
def takeSign : List Char → Bool × List Char
  | '+' :: cs => (false, cs)
  | '-' :: cs => (true, cs)
  | cs => (false, cs)

/-- Value of a string of decimal digits, most significant first. -/
def digitsVal (cs : List Char) : ℕ :=
  cs.foldl (fun a c => 10 * a + (c.toNat - 48)) 0

/-- Grammar of Python `float(str)` on a decimal literal:
`[sign] digits [. digits] [(e|E) [sign] digits]`, with at least one
mantissa digit; any other shape gives `none`, modelling `ValueError`
(source line 82).  Special spellings such as `inf` or `nan` never occur in
the claims and are not modelled. -/
def pyFloatCore (cs : List Char) : Option ℚ :=
  let sg := takeSign cs
  let ipr := sg.2.span Char.isDigit
  let dotr : Bool × List Char :=
    match ipr.2 with
    | '.' :: rest => (true, rest)
    | other => (false, other)
  let fpr := if dotr.1 then dotr.2.span Char.isDigit else ([], dotr.2)
  if ipr.1.isEmpty && fpr.1.isEmpty then none
  else
    let m0 : ℤ := (digitsVal (ipr.1 ++ fpr.1) : ℤ)
    let m : ℤ := if sg.1 then -m0 else m0
    let mkVal : ℤ → Option ℚ := fun e =>
      if 0 ≤ e then some (Rat.divInt (m * (10 : ℤ) ^ e.toNat) 1)
      else some (Rat.divInt m ((10 : ℤ) ^ (-e).toNat))
    match fpr.2 with
    | [] => mkVal (-(fpr.1.length : ℤ))
    | e :: rest =>
      if e = 'e' || e = 'E' then
        let esg := takeSign rest
        let edr := esg.2.span Char.isDigit
        if edr.1.isEmpty || !edr.2.isEmpty then none
        else
          let ev : ℤ := if esg.1 then -(digitsVal edr.1 : ℤ) else (digitsVal edr.1 : ℤ)
          mkVal (ev - (fpr.1.length : ℤ))
      else none

/-- Python `float(tok)`: surrounding whitespace is stripped, then the
decimal-literal grammar applies. -/
def pyFloat (tok : List Char) : Option ℚ :=
  pyFloatCore (((tok.dropWhile Char.isWhitespace).reverse.dropWhile
    Char.isWhitespace).reverse)

/-- Character sequence of the literal token searched for in the response. -/
def offsetSep : List Char := "offset".data

/-- Parsing step of `_query_ntp_server` (source lines 81-85):
`float(ret.split('\n')[-1].split('offset')[1].split()[0])` inside
`try ... except (TypeError, AttributeError, IndexError): return None`.

* `ret = none` (absent response): `None.split` raises `AttributeError`,
  which is caught — result `Except.ok none`.
* missing `offset` token: indexing `[1]` raises `IndexError`, caught —
  `Except.ok none`; likewise `[0]` on an empty token list.
* a token that `float` rejects raises `ValueError`, which is NOT in the
  except clause and propagates — `Except.error ()`. -/
def parseOffset (ret : Option String) : Except Unit (Option ℚ) :=
  match ret with
  | none => Except.ok none
  | some s =>
    let lastLine := (splitOnChar (fun c => c = '\n') s.data).getLastD []
    match (splitOnL offsetSep lastLine).get? 1 with
    | none => Except.ok none
    | some after =>
      match (splitWsL after).head? with
      | none => Except.ok none
      | some tok =>
        match pyFloat tok with
        | some q => Except.ok (some q)
        | none => Except.error ()

/-- Merge of the chained list into the working server list (source lines
45-50).  Python truthiness: `chained` is consulted only when
`extend_chained` holds, and only a non-`None`, non-empty `chained` list is
merged; it is appended when `ntp_servers` is truthy (non-empty) and becomes
the working list otherwise. -/
def mergeServers (ntp_servers : List String) (extend_chained : Bool)
    (chained : Option (List String)) : List String :=
  if extend_chained then
    match chained with
    | some c =>
      if c.isEmpty then ntp_servers
      else if ntp_servers.isEmpty then c
      else ntp_servers ++ c
    | none => ntp_servers
  else ntp_servers

/-- Final value of the caller's `ntp_servers` list object after
`time_check` returns (source lines 45-48).  Python aliasing semantics:
`ntp_servers.extend(chained)` mutates the caller's list object in place
(taken when both lists are truthy), while `ntp_servers = chained` merely
rebinds the local parameter and leaves the caller's object unchanged. -/
def callerListAfter (ntp_servers : List String) (extend_chained : Bool)
    (chained : Option (List String)) : List String :=
  if extend_chained then
    match chained with
    | some c =>
      if c.isEmpty then ntp_servers
      else if ntp_servers.isEmpty then ntp_servers
      else ntp_servers ++ c
    | none => ntp_servers
  else ntp_servers

/-- Threshold, in seconds, against which a parsed offset is compared:
`max_offset * 60` (source line 61).  `max_offset` is an integer number of
minutes in the source (default 15). -/
def threshold (max_offset : ℤ) : ℚ :=
  ((max_offset * 60 : ℤ) : ℚ)

/-- The per-server loop of `time_check` (source lines 55-63), with the
parsed-offset threshold `th = max_offset * 60`, the running
`checked_servers` counter, and — as second component — the trace of servers
on which the query collaborator was invoked, in order.  Python truthiness
on line 57 (`if not offset: continue`) skips both a `None` result and an
offset of exactly `0.0` without counting it. -/
def loopRun (query : String → Except Unit (Option ℚ)) (th : ℚ) :
    List String → ℕ → LoopOutcome × List String
  | [], checked => (LoopOutcome.done checked, [])
  | s :: rest, checked =>
    match query s with
    | Except.error _ => (LoopOutcome.raised, [s])
    | Except.ok none =>
      let r := loopRun query th rest checked
      (r.1, s :: r.2)
    | Except.ok (some off) =>
      if off = 0 then
        let r := loopRun query th rest checked
        (r.1, s :: r.2)
      else if off > th then (LoopOutcome.violated, [s])
      else
        let r := loopRun query th rest (checked + 1)
        (r.1, s :: r.2)

/-- `time_check` (source lines 15-68) over an injected query collaborator.
Returns `Except.error ()` when an exception escapes (never produced by the
source's own code paths except the uncaught `ValueError` of the parser),
otherwise `Except.ok (executed, passed)` where `passed = none` models
Python `None`. -/
def time_check (query : String → Except Unit (Option ℚ))
    (ntp_servers : List String) (max_offset : ℤ) (nb_servers : ℕ)
    (extend_chained : Bool) (chained : Option (List String)) :
    Except Unit (Bool × Option Bool) :=
  let servers := mergeServers ntp_servers extend_chained chained
  if servers.isEmpty then Except.ok (false, none)
  else
    match (loopRun query (threshold max_offset) servers 0).1 with
    | LoopOutcome.raised => Except.error ()
    | LoopOutcome.violated => Except.ok (true, some false)
    | LoopOutcome.done checked =>
      if checked < nb_servers then Except.ok (false, some false)
      else Except.ok (true, some true)

set_option linter.unusedVariables false in
/-- The servers on which `time_check` invokes the query collaborator, in
order (empty when the merged list is empty, since the loop is never
entered).  `nb_servers` is irrelevant to the trace but kept for signature
parity with `time_check`. -/
def time_check_trace (query : String → Except Unit (Option ℚ))
    (ntp_servers : List String) (max_offset : ℤ) (nb_servers : ℕ)
    (extend_chained : Bool) (chained : Option (List String)) : List String :=
  let servers := mergeServers ntp_servers extend_chained chained
  if servers.isEmpty then []
  else (loopRun query (threshold max_offset) servers 0).2

/-- A per-server query result that neither raises nor exceeds the
threshold: the loop handles it without short-circuiting. -/
def okStep (th : ℚ) : Except Unit (Option ℚ) → Bool
  | Except.ok none => true
  | Except.ok (some q) => decide (q ≤ th)
  | Except.error _ => false

/-- A query result carrying a successfully parsed offset (of any value,
zero included). -/
def isParsed : Except Unit (Option ℚ) → Bool
  | Except.ok (some _) => true
  | _ => false

/-- Number of servers in the list whose query yields a parseable offset. -/
def parsedCount (query : String → Except Unit (Option ℚ))
    (servers : List String) : ℕ :=
  (servers.filter (fun s => isParsed (query s))).length

/-- A query result the loop actually counts: a parsed offset that is
truthy in Python, i.e. non-zero. -/
def isCounted : Except Unit (Option ℚ) → Bool
  | Except.ok (some q) => decide (q ≠ 0)
  | _ => false

/-- Number of servers in the list whose query yields a non-zero parseable
offset — exactly the servers `checked_servers` counts when none of them
violates the threshold. -/
def countedCount (query : String → Except Unit (Option ℚ))
    (servers : List String) : ℕ :=
  (servers.filter (fun s => isCounted (query s))).length

/-- Query collaborator returning a small valid offset for every server. -/
def smallQuery : String → Except Unit (Option ℚ) := fun _ => Except.ok (some (Rat.divInt 1 100))

/-- Query collaborator returning an offset of exactly `0.0` for every
server. -/
def zeroQuery : String → Except Unit (Option ℚ) := fun _ => Except.ok (some 0)

/-- Query collaborator returning a hugely negative offset for every
server. -/
def negQuery : String → Except Unit (Option ℚ) := fun _ => Except.ok (some (-100000))

/-- Query collaborator for the short-circuit scenario: servers `a`, `b`
answer small offsets, server `c` answers 1000 seconds (over the 900-second
threshold), every other server answers 0.5 seconds. -/
def scenarioViol : String → Except Unit (Option ℚ) := fun s =>
  if s = "a" then Except.ok (some 2)
  else if s = "b" then Except.ok (some (-1))
  else if s = "c" then Except.ok (some 1000)
  else Except.ok (some (Rat.divInt 1 2))

/-- Query collaborator for the all-pass scenario: offsets 2.0, -1.0, 5.0
and 0.5 seconds. -/
def scenarioPass : String → Except Unit (Option ℚ) := fun s =>
  if s = "a" then Except.ok (some 2)
  else if s = "b" then Except.ok (some (-1))
  else if s = "c" then Except.ok (some 5)
  else Except.ok (some (Rat.divInt 1 2))

/-- Query collaborator that fails cleanly on server `a` and returns a
zero offset elsewhere. -/
def noneOnA : String → Except Unit (Option ℚ) := fun s =>
  if s = "a" then Except.ok none else Except.ok (some 0)

deriving instance DecidableEq for Except

/-! Helper lemmas about the loop. -/

theorem loopRun_cons_err (query : String → Except Unit (Option ℚ)) (th : ℚ)
    (s : String) (rest : List String) (c : ℕ) (u : Unit)
    (hq : query s = Except.error u) :
    loopRun query th (s :: rest) c = (LoopOutcome.raised, [s]) := by
  simp [loopRun, hq]

theorem loopRun_cons_none (query : String → Except Unit (Option ℚ)) (th : ℚ)
    (s : String) (rest : List String) (c : ℕ)
    (hq : query s = Except.ok none) :
    loopRun query th (s :: rest) c =
      ((loopRun query th rest c).1, s :: (loopRun query th rest c).2) := by
  simp [loopRun, hq]

theorem loopRun_cons_zero (query : String → Except Unit (Option ℚ)) (th : ℚ)
    (s : String) (rest : List String) (c : ℕ)
    (hq : query s = Except.ok (some 0)) :
    loopRun query th (s :: rest) c =
      ((loopRun query th rest c).1, s :: (loopRun query th rest c).2) := by
  simp [loopRun, hq]

theorem loopRun_cons_viol (query : String → Except Unit (Option ℚ)) (th : ℚ)
    (s : String) (rest : List String) (c : ℕ) (off : ℚ)
    (hq : query s = Except.ok (some off)) (h0 : off ≠ 0) (hv : off > th) :
    loopRun query th (s :: rest) c = (LoopOutcome.violated, [s]) := by
  simp [loopRun, hq, h0, hv]

theorem loopRun_cons_count (query : String → Except Unit (Option ℚ)) (th : ℚ)
    (s : String) (rest : List String) (c : ℕ) (off : ℚ)
    (hq : query s = Except.ok (some off)) (h0 : off ≠ 0) (hv : ¬ off > th) :
    loopRun query th (s :: rest) c =
      ((loopRun query th rest (c + 1)).1, s :: (loopRun query th rest (c + 1)).2) := by
  simp [loopRun, hq, h0, hv]

theorem isParsed_err (u : Unit) : isParsed (Except.error u) = false := rfl

theorem isParsed_none : isParsed (Except.ok none) = false := rfl

theorem isParsed_some (q : ℚ) : isParsed (Except.ok (some q)) = true := rfl

theorem isCounted_err (u : Unit) : isCounted (Except.error u) = false := rfl

theorem isCounted_none : isCounted (Except.ok none) = false := rfl

theorem isCounted_some (q : ℚ) :
    isCounted (Except.ok (some q)) = decide (q ≠ 0) := rfl

theorem parsedCount_cons (query : String → Except Unit (Option ℚ))
    (s : String) (rest : List String) :
    parsedCount query (s :: rest) =
      (if isParsed (query s) then 1 else 0) + parsedCount query rest := by
  by_cases hp : isParsed (query s) <;>
    simp [parsedCount, List.filter_cons, hp, Nat.add_comm]

theorem countedCount_cons (query : String → Except Unit (Option ℚ))
    (s : String) (rest : List String) :
    countedCount query (s :: rest) =
      (if isCounted (query s) then 1 else 0) + countedCount query rest := by
  by_cases hp : isCounted (query s) <;>
    simp [countedCount, List.filter_cons, hp, Nat.add_comm]

/-- When the loop runs to completion, the final `checked_servers` counter
is bounded by its start value plus the number of servers with parseable
offsets. -/
theorem loopRun_done_le (query : String → Except Unit (Option ℚ)) (th : ℚ) :
    ∀ (servers : List String) (c0 c : ℕ),
      (loopRun query th servers c0).1 = LoopOutcome.done c →
      c ≤ c0 + parsedCount query servers := by
  intro servers
  induction servers with
  | nil =>
    intro c0 c h
    simp [loopRun] at h
    simp [parsedCount, h]
  | cons s rest ih =>
    intro c0 c h
    rcases hq : query s with u | oq
    · rw [loopRun_cons_err query th s rest c0 u hq] at h
      simp at h
    · rcases oq with _ | off
      · rw [loopRun_cons_none query th s rest c0 hq] at h
        have := ih c0 c h
        rw [parsedCount_cons, hq, isParsed_none]
        omega
      · by_cases h0 : off = 0
        · subst h0
          rw [loopRun_cons_zero query th s rest c0 hq] at h
          have := ih c0 c h
          rw [parsedCount_cons, hq, isParsed_some]
          simp only [if_pos rfl]
          omega
        · by_cases hv : off > th
          · rw [loopRun_cons_viol query th s rest c0 off hq h0 hv] at h
            simp at h
          · rw [loopRun_cons_count query th s rest c0 off hq h0 hv] at h
            have := ih (c0 + 1) c h
            have hpc : parsedCount query (s :: rest) = 1 + parsedCount query rest := by
              rw [parsedCount_cons, hq, isParsed_some]
              simp
            rw [hpc]
            omega

/-- When every queried result neither raises nor exceeds the threshold,
the loop visits every server, never short-circuits, and ends with the
counter increased by exactly the number of non-zero parseable offsets. -/
theorem loopRun_all_ok (query : String → Except Unit (Option ℚ)) (th : ℚ) :
    ∀ (servers : List String) (c0 : ℕ),
      (∀ s ∈ servers, okStep th (query s) = true) →
      loopRun query th servers c0 =
        (LoopOutcome.done (c0 + countedCount query servers), servers) := by
  intro servers
  induction servers with
  | nil =>
    intro c0 _
    simp [loopRun, countedCount]
  | cons s rest ih =>
    intro c0 hall
    have hs := hall s (by simp)
    have hrest : ∀ x ∈ rest, okStep th (query x) = true :=
      fun x hx => hall x (by simp [hx])
    rcases hq : query s with u | oq
    · rw [hq] at hs
      simp [okStep] at hs
    · rcases oq with _ | off
      · rw [loopRun_cons_none query th s rest c0 hq, ih c0 hrest]
        have hc : countedCount query (s :: rest) = countedCount query rest := by
          rw [countedCount_cons, hq, isCounted_none]
          simp
        rw [hc]
      · have hle : off ≤ th := by
          rw [hq] at hs
          simpa [okStep] using hs
        by_cases h0 : off = 0
        · subst h0
          rw [loopRun_cons_zero query th s rest c0 hq, ih c0 hrest]
          have hc : countedCount query (s :: rest) = countedCount query rest := by
            rw [countedCount_cons, hq, isCounted_some]
            simp
          rw [hc]
        · rw [loopRun_cons_count query th s rest c0 off hq h0 (not_lt.mpr hle),
              ih (c0 + 1) hrest]
          have hc : countedCount query (s :: rest) = 1 + countedCount query rest := by
            rw [countedCount_cons, hq, isCounted_some]
            simp [h0]
          rw [hc]
          have harith : c0 + 1 + countedCount query rest =
              c0 + (1 + countedCount query rest) := by omega
          rw [harith]

/-- A server whose parsed offset is non-zero and over the threshold stops
the loop immediately, provided every earlier server's result neither
raised nor exceeded the threshold: the outcome is `violated` and exactly
the servers up to and including the violating one are queried. -/
theorem loopRun_viol (query : String → Except Unit (Option ℚ)) (th : ℚ)
    (s : String) (off : ℚ) (hq : query s = Except.ok (some off))
    (h0 : off ≠ 0) (hv : off > th) :
    ∀ (pre : List String), (∀ x ∈ pre, okStep th (query x) = true) →
      ∀ (post : List String) (c0 : ℕ),
        loopRun query th (pre ++ s :: post) c0 = (LoopOutcome.violated, pre ++ [s]) := by
  intro pre
  induction pre with
  | nil =>
    intro _ post c0
    simpa using loopRun_cons_viol query th s post c0 off hq h0 hv
  | cons x pre' ih =>
    intro hall post c0
    have hx := hall x (by simp)
    have hpre' : ∀ y ∈ pre', okStep th (query y) = true :=
      fun y hy => hall y (by simp [hy])
    rcases hqx : query x with u | oq
    · rw [hqx] at hx
      simp [okStep] at hx
    · rcases oq with _ | offx
      · rw [List.cons_append, loopRun_cons_none query th x _ c0 hqx,
            ih hpre' post c0]
        simp
      · have hlex : offx ≤ th := by
          rw [hqx] at hx
          simpa [okStep] using hx
        by_cases h0x : offx = 0
        · subst h0x
          rw [List.cons_append, loopRun_cons_zero query th x _ c0 hqx,
              ih hpre' post c0]
          simp
        · rw [List.cons_append,
              loopRun_cons_count query th x _ c0 offx hqx h0x (not_lt.mpr hlex),
              ih hpre' post (c0 + 1)]
          simp

/-- The loop depends on the query collaborator only through its values on
the listed servers. -/
theorem loopRun_congr (q1 q2 : String → Except Unit (Option ℚ)) (th : ℚ) :
    ∀ (servers : List String) (c : ℕ),
      (∀ s ∈ servers, q1 s = q2 s) →
      loopRun q1 th servers c = loopRun q2 th servers c := by
  intro servers
  induction servers with
  | nil => intro c _; rfl
  | cons s rest ih =>
    intro c hall
    have hs : q1 s = q2 s := hall s (by simp)
    have hrest : ∀ x ∈ rest, q1 x = q2 x := fun x hx => hall x (by simp [hx])
    rcases hq : q2 s with u | oq
    · rw [loopRun_cons_err q1 th s rest c u (hs.trans hq),
          loopRun_cons_err q2 th s rest c u hq]
    · rcases oq with _ | off
      · rw [loopRun_cons_none q1 th s rest c (hs.trans hq),
            loopRun_cons_none q2 th s rest c hq, ih c hrest]
      · by_cases h0 : off = 0
        · subst h0
          rw [loopRun_cons_zero q1 th s rest c (hs.trans hq),
              loopRun_cons_zero q2 th s rest c hq, ih c hrest]
        · by_cases hv : off > th
          · rw [loopRun_cons_viol q1 th s rest c off (hs.trans hq) h0 hv,
                loopRun_cons_viol q2 th s rest c off hq h0 hv]
          · rw [loopRun_cons_count q1 th s rest c off (hs.trans hq) h0 hv,
                loopRun_cons_count q2 th s rest c off hq h0 hv, ih (c + 1) hrest]

/-! Claim theorems. -/

/-- Claim C1, amended: when evaluation exhausts all servers (no parsed
offset exceeded the threshold and no exception was raised) and the count
of servers that yielded a parseable offset is strictly less than
`nb_servers`, `time_check` returns `(False, False)` — the first component
is `False`, not `True` as the original claim states. -/
theorem C1_quorum_unmet (query : String → Except Unit (Option ℚ))
    (ntp_servers : List String) (max_offset : ℤ) (nb_servers : ℕ)
    (extend_chained : Bool) (chained : Option (List String)) (c : ℕ)
    (hne : (mergeServers ntp_servers extend_chained chained).isEmpty = false)
    (hloop : (loopRun query (threshold max_offset)
        (mergeServers ntp_servers extend_chained chained) 0).1 = LoopOutcome.done c)
    (hquorum : parsedCount query (mergeServers ntp_servers extend_chained chained)
        < nb_servers) :
    time_check query ntp_servers max_offset nb_servers extend_chained chained =
      Except.ok (false, some false) := by
  have hc : c < nb_servers := by
    have := loopRun_done_le query (threshold max_offset)
      (mergeServers ntp_servers extend_chained chained) 0 c hloop
    omega
  simp [time_check, hne, hloop, hc]

/-- Witness for C1: the spec's own scenario — two servers, quorum 4, both
returning small valid offsets. -/
theorem C1_witness :
    time_check smallQuery ["a", "b"] 15 4 true none = Except.ok (false, some false) :=
  C1_quorum_unmet smallQuery ["a", "b"] 15 4 true none 2 (by decide) (by decide) (by decide)

/-- Counterexample to C1 as stated: in the spec's own scenario (servers
`a` and `b`, quorum 4, both yielding parseable small offsets, loop
exhausted), the code returns `(False, False)`, not `(True, False)`. -/
theorem C1_counterexample :
    (loopRun smallQuery (threshold 15) (mergeServers ["a", "b"] true none) 0).1 =
        LoopOutcome.done 2
      ∧ parsedCount smallQuery (mergeServers ["a", "b"] true none) < 4
      ∧ time_check smallQuery ["a", "b"] 15 4 true none ≠ Except.ok (true, some false) := by
  refine ⟨by decide, by decide, by decide⟩

/-- Claim C2 states the documented intent, but the code violates it: on a
response whose text after the `offset` token is non-numeric, `float`
raises `ValueError`, which the `except (TypeError, AttributeError,
IndexError)` clause does not catch; the exception escapes
`_query_ntp_server` and hence the whole evaluator. -/
theorem C2_uncaught_valueerror :
    parseOffset (some "offset abc") = Except.error ()
      ∧ time_check (fun _ => parseOffset (some "offset abc")) ["a"] 15 4 true none =
          Except.error () := by
  refine ⟨by decide, by decide⟩

/-- Claim C3: if the server at position `pre.length` of the merged list
returns a parseable offset strictly greater than `max_offset * 60` and
every earlier server's result neither raised nor exceeded the threshold,
`time_check` returns exactly `(True, False)` and the query collaborator is
invoked exactly on the servers up to and including the violating one. -/
theorem C3_short_circuit (query : String → Except Unit (Option ℚ))
    (ntp_servers : List String) (max_offset : ℤ) (nb_servers : ℕ)
    (extend_chained : Bool) (chained : Option (List String))
    (pre post : List String) (s : String) (off : ℚ)
    (hmo : 0 ≤ max_offset)
    (hm : mergeServers ntp_servers extend_chained chained = pre ++ s :: post)
    (hpre : ∀ x ∈ pre, okStep (threshold max_offset) (query x) = true)
    (hs : query s = Except.ok (some off))
    (hviol : off > threshold max_offset) :
    time_check query ntp_servers max_offset nb_servers extend_chained chained =
        Except.ok (true, some false)
      ∧ time_check_trace query ntp_servers max_offset nb_servers extend_chained chained =
          pre ++ [s] := by
  have hth0 : (0 : ℚ) ≤ threshold max_offset := by
    unfold threshold
    exact_mod_cast mul_nonneg hmo (by norm_num)
  have h0 : off ≠ 0 := by
    intro h
    rw [h] at hviol
    exact absurd hviol (not_lt.mpr hth0)
  have hrun := loopRun_viol query (threshold max_offset) s off hs h0 hviol pre hpre post 0
  have hne : (mergeServers ntp_servers extend_chained chained).isEmpty = false := by
    rw [hm]
    cases pre <;> simp
  constructor
  · simp [time_check, hne, hm, hrun]
  · simp [time_check_trace, hne, hm, hrun]

/-- Witness for C3: the spec's concrete scenario — the third server
answers 1000 seconds (over the 900-second threshold); the result is
`(True, False)` and server `d` is never queried. -/
theorem C3_witness :
    time_check scenarioViol ["a", "b", "c", "d"] 15 4 true none =
        Except.ok (true, some false)
      ∧ time_check_trace scenarioViol ["a", "b", "c", "d"] 15 4 true none =
          ["a", "b", "c"] := by
  have h := C3_short_circuit scenarioViol ["a", "b", "c", "d"] 15 4 true none
    ["a", "b"] ["d"] "c" 1000 (by decide) (by decide) (by decide) (by decide) (by decide)
  simpa using h

/-- Claim C4, amended: if every queried result either fails cleanly or
parses to an offset not exceeding the threshold, and at least `nb_servers`
servers yield a parseable NON-ZERO offset, then `time_check` returns
`(True, True)`.  (As stated, with zero counted among parseable offsets,
the claim is false: see the counterexample.) -/
theorem C4_quorum_met (query : String → Except Unit (Option ℚ))
    (ntp_servers : List String) (max_offset : ℤ) (nb_servers : ℕ)
    (extend_chained : Bool) (chained : Option (List String))
    (hne : (mergeServers ntp_servers extend_chained chained).isEmpty = false)
    (hok : ∀ s ∈ mergeServers ntp_servers extend_chained chained,
      okStep (threshold max_offset) (query s) = true)
    (hquorum : nb_servers ≤
      countedCount query (mergeServers ntp_servers extend_chained chained)) :
    time_check query ntp_servers max_offset nb_servers extend_chained chained =
      Except.ok (true, some true) := by
  have hrun := loopRun_all_ok query (threshold max_offset)
    (mergeServers ntp_servers extend_chained chained) 0 hok
  have hnl : ¬ countedCount query (mergeServers ntp_servers extend_chained chained)
      < nb_servers := by omega
  simp [time_check, hne, hrun, hnl]

/-- Witness for C4: the spec's concrete scenario — four servers with
offsets 2.0, -1.0, 5.0 and 0.5 seconds against a 900-second threshold and
quorum 4. -/
theorem C4_witness :
    time_check scenarioPass ["a", "b", "c", "d"] 15 4 true none =
      Except.ok (true, some true) :=
  C4_quorum_met scenarioPass ["a", "b", "c", "d"] 15 4 true none
    (by decide) (by decide) (by decide)

/-- Counterexample to C4 as stated: one server returning the parseable,
within-threshold offset `0.0` with quorum 1.  The claim demands
`(True, True)`, but `if not offset` treats `0.0` as falsy: the server is
skipped, `checked_servers` stays 0, and the code returns `(False, False)`. -/
theorem C4_counterexample :
    parsedCount zeroQuery ["a"] = 1
      ∧ okStep (threshold 15) (zeroQuery "a") = true
      ∧ time_check zeroQuery ["a"] 15 1 true none ≠ Except.ok (true, some true) := by
  refine ⟨by decide, by decide, by decide⟩

/-- Claim C5: when the merged server list is empty, `time_check` returns
`(False, None)` and no server is queried. -/
theorem C5_empty_after_merge (query : String → Except Unit (Option ℚ))
    (ntp_servers : List String) (max_offset : ℤ) (nb_servers : ℕ)
    (extend_chained : Bool) (chained : Option (List String))
    (hempty : (mergeServers ntp_servers extend_chained chained).isEmpty = true) :
    time_check query ntp_servers max_offset nb_servers extend_chained chained =
        Except.ok (false, none)
      ∧ time_check_trace query ntp_servers max_offset nb_servers extend_chained chained =
          [] := by
  constructor
  · simp [time_check, hempty]
  · simp [time_check_trace, hempty]

/-- Witness for C5: empty `servers` and absent `chained` with
`extend_chained` true. -/
theorem C5_witness :
    time_check smallQuery [] 15 4 true none = Except.ok (false, none)
      ∧ time_check_trace smallQuery [] 15 4 true none = [] :=
  C5_empty_after_merge smallQuery [] 15 4 true none (by decide)

/-- Claim C6: with `extend_chained` true and a non-empty chained list, the
chained list is appended to a non-empty `ntp_servers` and substituted for
an empty one; the merge happens before the non-empty check (running
`time_check` on the original inputs equals running it on the merged list);
`chained` is not consulted when `extend_chained` is false; and with empty
`servers` the chained list is exactly the list whose servers get
queried. -/
theorem C6_merge_semantics (query : String → Except Unit (Option ℚ))
    (ntp_servers : List String) (max_offset : ℤ) (nb_servers : ℕ)
    (c : List String) (chained : Option (List String))
    (hc : c.isEmpty = false) :
    mergeServers ntp_servers true (some c) =
        (if ntp_servers.isEmpty then c else ntp_servers ++ c)
      ∧ mergeServers ntp_servers false chained = ntp_servers
      ∧ time_check query ntp_servers max_offset nb_servers true (some c) =
          time_check query (if ntp_servers.isEmpty then c else ntp_servers ++ c)
            max_offset nb_servers false none
      ∧ time_check_trace query [] max_offset nb_servers true (some c) =
          time_check_trace query c max_offset nb_servers false none := by
  have hmerge : mergeServers ntp_servers true (some c) =
      (if ntp_servers.isEmpty then c else ntp_servers ++ c) := by
    simp [mergeServers, hc]
  have h2 : mergeServers (if ntp_servers.isEmpty then c else ntp_servers ++ c) false none
      = (if ntp_servers.isEmpty then c else ntp_servers ++ c) := by
    simp [mergeServers]
  have h3 : mergeServers [] true (some c) = c := by
    simp [mergeServers, hc]
  have h4 : mergeServers c false none = c := by
    simp [mergeServers]
  refine ⟨hmerge, by simp [mergeServers], ?_, ?_⟩
  · simp only [time_check, hmerge, h2]
  · simp only [time_check_trace, h3, h4]

/-- Witness for C6 at concrete lists. -/
theorem C6_witness :
    mergeServers ["a"] true (some ["x"]) =
        (if (["a"] : List String).isEmpty then ["x"] else ["a"] ++ ["x"])
      ∧ mergeServers ["a"] false (some ["y"]) = ["a"]
      ∧ time_check smallQuery ["a"] 15 4 true (some ["x"]) =
          time_check smallQuery
            (if (["a"] : List String).isEmpty then ["x"] else ["a"] ++ ["x"])
            15 4 false none
      ∧ time_check_trace smallQuery [] 15 4 true (some ["x"]) =
          time_check_trace smallQuery ["x"] 15 4 false none :=
  C6_merge_semantics smallQuery ["a"] 15 4 ["x"] (some ["y"]) (by decide)

/-- Claim C7: the threshold comparison is one-directional.  For a
non-negative `max_offset`, a parsed offset strictly greater than
`max_offset * 60` triggers the immediate-failure branch, while a negative
parsed offset — however large in magnitude — never short-circuits: the
loop continues on the remaining servers with the quorum counter
incremented. -/
theorem C7_one_directional (query : String → Except Unit (Option ℚ))
    (max_offset : ℤ) (s : String) (rest : List String) (c : ℕ) (off : ℚ)
    (hq : query s = Except.ok (some off)) (hmo : 0 ≤ max_offset) :
    (off > threshold max_offset →
      loopRun query (threshold max_offset) (s :: rest) c = (LoopOutcome.violated, [s]))
    ∧ (off < 0 →
      loopRun query (threshold max_offset) (s :: rest) c =
        ((loopRun query (threshold max_offset) rest (c + 1)).1,
          s :: (loopRun query (threshold max_offset) rest (c + 1)).2)) := by
  have hth0 : (0 : ℚ) ≤ threshold max_offset := by
    unfold threshold
    exact_mod_cast mul_nonneg hmo (by norm_num)
  constructor
  · intro hv
    have h0 : off ≠ 0 := by
      intro h
      rw [h] at hv
      exact absurd hv (not_lt.mpr hth0)
    exact loopRun_cons_viol query (threshold max_offset) s rest c off hq h0 hv
  · intro hneg
    have h0 : off ≠ 0 := ne_of_lt hneg
    have hv : ¬ off > threshold max_offset := not_lt.mpr (le_trans (le_of_lt hneg) hth0)
    exact loopRun_cons_count query (threshold max_offset) s rest c off hq h0 hv

/-- Witness for C7: an offset of -100000 seconds does not short-circuit
and counts toward quorum. -/
theorem C7_witness :
    loopRun negQuery (threshold 15) ["a", "b"] 0 =
      ((loopRun negQuery (threshold 15) ["b"] 1).1,
        "a" :: (loopRun negQuery (threshold 15) ["b"] 1).2) :=
  (C7_one_directional negQuery 15 "a" ["b"] 0 (-100000) (by decide) (by decide)).2
    (by decide)

/-- Claim C8, amended: on the round-trip input
`"ignored line\nserver x, offset -0.0123, delay 0.01"` the parse does not
yield -0.0123 — the whitespace-delimited token after `offset` is
`-0.0123,` with a trailing comma, which `float` rejects, raising an
uncaught `ValueError` (modelled `Except.error ()`); the missing-token and
absent-response cases yield `None` as the claim states. -/
theorem C8_parse_cases :
    parseOffset (some "ignored line\nserver x, offset -0.0123, delay 0.01") =
        Except.error ()
      ∧ parseOffset (some "no such token here") = Except.ok none
      ∧ parseOffset none = Except.ok none := by
  refine ⟨by decide, by decide, rfl⟩

/-- Counterexample to C8 as stated: on the round-trip input the code does
not yield the offset -0.0123. -/
theorem C8_counterexample :
    parseOffset (some "ignored line\nserver x, offset -0.0123, delay 0.01") ≠
      Except.ok (some (Rat.divInt (-123) 10000)) := by
  decide

/-- Claim C9: a parsed offset of exactly `0.0` is treated identically to a
failed query: the server is skipped without incrementing the quorum
counter and without reaching the violation branch, and the loop result is
the same as if that server's query had failed. -/
theorem C9_zero_offset_skipped (query query2 : String → Except Unit (Option ℚ))
    (th : ℚ) (s : String) (rest : List String) (c : ℕ)
    (hq : query s = Except.ok (some 0)) (hq2 : query2 s = Except.ok none)
    (hrest : ∀ x ∈ rest, query x = query2 x) :
    loopRun query th (s :: rest) c =
        ((loopRun query th rest c).1, s :: (loopRun query th rest c).2)
      ∧ loopRun query th (s :: rest) c = loopRun query2 th (s :: rest) c := by
  constructor
  · exact loopRun_cons_zero query th s rest c hq
  · rw [loopRun_cons_zero query th s rest c hq,
        loopRun_cons_none query2 th s rest c hq2,
        loopRun_congr query query2 th rest c hrest]

/-- Witness for C9: server `a` answering exactly `0.0` behaves like
server `a` failing. -/
theorem C9_witness :
    loopRun zeroQuery (threshold 15) ["a", "b"] 0 =
        ((loopRun zeroQuery (threshold 15) ["b"] 0).1,
          "a" :: (loopRun zeroQuery (threshold 15) ["b"] 0).2)
      ∧ loopRun zeroQuery (threshold 15) ["a", "b"] 0 =
          loopRun noneOnA (threshold 15) ["a", "b"] 0 :=
  C9_zero_offset_skipped zeroQuery noneOnA (threshold 15) "a" ["b"] 0
    (by decide) (by decide) (by decide)

/-- Claim C10: with `extend_chained` true and both lists non-empty, the
caller's `ntp_servers` list object is mutated in place by
`list.extend`: after the call it holds the appended servers and is no
longer its original value. -/
theorem C10_mutation (ntp_servers : List String) (c : List String)
    (hs : ntp_servers.isEmpty = false) (hc : c.isEmpty = false) :
    callerListAfter ntp_servers true (some c) = ntp_servers ++ c
      ∧ callerListAfter ntp_servers true (some c) ≠ ntp_servers := by
  have heq : callerListAfter ntp_servers true (some c) = ntp_servers ++ c := by
    simp [callerListAfter, hc, hs]
  refine ⟨heq, ?_⟩
  rw [heq]
  intro h
  have hlen := congrArg List.length h
  rw [List.length_append] at hlen
  have hc0 : c.length = 0 := by omega
  rw [List.length_eq_zero] at hc0
  subst hc0
  simp at hc

/-- Witness for C10 at concrete lists. -/
theorem C10_witness :
    callerListAfter ["a"] true (some ["x"]) = ["a"] ++ ["x"]
      ∧ callerListAfter ["a"] true (some ["x"]) ≠ ["a"] :=
  C10_mutation ["a"] ["x"] (by decide) (by decide)
